import Mathlib

/-!
Verification of the event dispatch subsystem of `python_ooo_dev_tools`.

The development shallowly embeds the Python classes `EventArgs`
(from `src/ooodev/events/args/event_args.py`), `CancelEventError`
(from `src/ooodev/exceptions/ex.py`) and — modelled from the spec, since
`src/ooodev/events/args/cancel_event_args.py` and
`src/ooodev/events/lo_events.py` are not among the sources —
`CancelEventArgs` and the `Events` registry.

Python objects carried opaquely (event sources, event data, messages) are
embedded as `PyValue`; object identity is embedded as equality of the
opaque `obj` tag.  Mutation of an args object is embedded as explicit
state passing: a subscriber callback receives the pair passed by the
dispatcher and returns the (possibly mutated) args object.
-/

/-- Opaque Python values: the absent value `None`, integers, strings, and
opaque objects identified by a tag (embedding reference identity). -/
inductive PyValue : Type where
  | none : PyValue
  | int : Int → PyValue
  | str : String → PyValue
  | obj : Nat → PyValue
deriving DecidableEq

/-- `EventArgs` from `src/ooodev/events/args/event_args.py`: fields
`_source` and `_event_name` are set by the constructor; `_event_data` is
an attribute that the constructor does NOT set, embedded as an `Option`
where `Option.none` means the attribute is absent on the object. -/
structure EventArgs : Type where
  _source : PyValue
  _event_name : String
  _event_data : Option PyValue
deriving DecidableEq

/-- `EventArgs.__init__(self, source)`: stores `source`, sets
`_event_name` to the empty string, and leaves `_event_data` unset. -/
def EventArgs.init (source : PyValue) : EventArgs :=
  { _source := source, _event_name := "", _event_data := Option.none }

/-- Property getter `EventArgs.source`. -/
def EventArgs.source (e : EventArgs) : PyValue :=
  e._source

/-- Property setter `EventArgs.source`. -/
def EventArgs.set_source (e : EventArgs) (value : PyValue) : EventArgs :=
  { e with _source := value }

/-- Property getter `EventArgs.event_name`. -/
def EventArgs.event_name (e : EventArgs) : String :=
  e._event_name

/-- Property setter `EventArgs.event_name`: stores the value with no
validation or transformation. -/
def EventArgs.set_event_name (e : EventArgs) (value : String) : EventArgs :=
  { e with _event_name := value }

/-- The raw attribute read `self._event_data`: raises `AttributeError`
(embedded as `Except.error`) when the attribute was never assigned. -/
def EventArgs.event_data_attr (e : EventArgs) : Except String PyValue :=
  match e._event_data with
  | Option.some v => Except.ok v
  | Option.none => Except.error "AttributeError"

/-- Property getter `EventArgs.event_data`: `try: return self._event_data
except AttributeError: return None`. -/
def EventArgs.event_data (e : EventArgs) : PyValue :=
  match e.event_data_attr with
  | Except.ok v => v
  | Except.error _ => PyValue.none

/-- Property setter `EventArgs.event_data`: assigns the attribute. -/
def EventArgs.set_event_data (e : EventArgs) (value : PyValue) : EventArgs :=
  { e with _event_data := Option.some value }

/-- Modelled from the spec: `CancelEventArgs`
(`src/ooodev/events/args/cancel_event_args.py` is not among the sources)
extends `EventArgs` with a boolean `cancel` flag; the flag is initialized
`false` and is settable by any subscriber during dispatch.  The inherited
`EventArgs` fields are flattened into the structure. -/
structure CancelEventArgs : Type where
  _source : PyValue
  _event_name : String
  _event_data : Option PyValue
  cancel : Bool
deriving DecidableEq

/-- Modelled from the spec: the `CancelEventArgs(source)` constructor
initializes the `EventArgs` part as `EventArgs.__init__` does and sets
`cancel` to `false`. -/
def CancelEventArgs.init (source : PyValue) : CancelEventArgs :=
  { _source := source, _event_name := "", _event_data := Option.none,
    cancel := false }

/-- Inherited property getter `source` on `CancelEventArgs`. -/
def CancelEventArgs.source (e : CancelEventArgs) : PyValue :=
  e._source

/-- Inherited property getter `event_name` on `CancelEventArgs`. -/
def CancelEventArgs.event_name (e : CancelEventArgs) : String :=
  e._event_name

/-- Inherited property setter `event_name` on `CancelEventArgs`. -/
def CancelEventArgs.set_event_name (e : CancelEventArgs) (value : String) :
    CancelEventArgs :=
  { e with _event_name := value }

/-- Inherited property getter `event_data` on `CancelEventArgs`. -/
def CancelEventArgs.event_data (e : CancelEventArgs) : PyValue :=
  match e._event_data with
  | Option.some v => v
  | Option.none => PyValue.none

/-- Inherited property setter `event_data` on `CancelEventArgs`. -/
def CancelEventArgs.set_event_data (e : CancelEventArgs) (value : PyValue) :
    CancelEventArgs :=
  { e with _event_data := Option.some value }

/-- Assignment `args.cancel = value` on a `CancelEventArgs`. -/
def CancelEventArgs.set_cancel (e : CancelEventArgs) (value : Bool) :
    CancelEventArgs :=
  { e with cancel := value }

/-- The duck-typed surface the dispatcher uses on an args object: read
`source`, read and assign `event_name`.  Both `EventArgs` and
`CancelEventArgs` provide it; the two laws record that `event_name` is an
ordinary stored attribute. -/
class ArgsLike (A : Type) where
  getSource : A → PyValue
  getEventName : A → String
  setEventName : A → String → A
  getEventName_set : ∀ a n, getEventName (setEventName a n) = n
  getSource_set : ∀ a n, getSource (setEventName a n) = getSource a

instance : ArgsLike EventArgs where
  getSource := EventArgs.source
  getEventName := EventArgs.event_name
  setEventName := EventArgs.set_event_name
  getEventName_set := fun _ _ => rfl
  getSource_set := fun _ _ => rfl

instance : ArgsLike CancelEventArgs where
  getSource := CancelEventArgs.source
  getEventName := CancelEventArgs.event_name
  setEventName := CancelEventArgs.set_event_name
  getEventName_set := fun _ _ => rfl
  getSource_set := fun _ _ => rfl

/-- A subscriber callback: receives the pair `(source, args)` the
dispatcher passes and returns the (possibly mutated) args object.  This
total form embeds a subscriber call that returns normally. -/
def Callback (A : Type) : Type :=
  PyValue → A → A

/-- Modelled from the spec: the `Events` registry
(`src/ooodev/events/lo_events.py` is not among the sources) holds a
mapping from event name to the ordered list of subscriber callbacks
registered for that name. -/
structure Events (A : Type) : Type where
  callbacks : String → List (Callback A)

/-- A freshly constructed `Events()` registry: no subscribers anywhere. -/
def Events.empty (A : Type) : Events A :=
  ⟨fun _ => []⟩

/-- Modelled from the spec: `on(name, callback)` appends `callback` to
the subscriber list for `name`, creating the list if absent; duplicates
accumulate. -/
def Events.on (e : Events A) (name : String) (cb : Callback A) :
    Events A :=
  ⟨fun k => if k = name then e.callbacks k ++ [cb] else e.callbacks k⟩

/-- `k` successive calls `on(name, cb)` on the same registry. -/
def Events.onTimes (e : Events A) (name : String) (cb : Callback A) :
    Nat → Events A
  | 0 => e
  | Nat.succ k => (Events.onTimes e name cb k).on name cb

/-- The dispatch loop: invoke each callback in order, passing the pair
`(args.source, args)`, threading the mutated args object through. -/
def runCallbacks [ArgsLike A] : List (Callback A) → A → A
  | [], a => a
  | cb :: rest, a => runCallbacks rest (cb (ArgsLike.getSource a) a)

/-- The successive args states passed to the callbacks, in invocation
order (one entry per callback invoked). -/
def dispatchStates [ArgsLike A] : List (Callback A) → A → List A
  | [], _ => []
  | cb :: rest, a => a :: dispatchStates rest (cb (ArgsLike.getSource a) a)

/-- All args states of a dispatch: the state passed to each callback in
order, followed by the final state after the last callback returns. -/
def dispatchChain [ArgsLike A] : List (Callback A) → A → List A
  | [], a => [a]
  | cb :: rest, a => a :: dispatchChain rest (cb (ArgsLike.getSource a) a)

/-- The instrumented dispatch loop: records, for each callback actually
invoked and in invocation order, the exact pair `(source, args)` that was
passed to it. -/
def runTrace [ArgsLike A] : List (Callback A) → A → List (PyValue × A)
  | [], _ => []
  | cb :: rest, a =>
      (ArgsLike.getSource a, a) :: runTrace rest (cb (ArgsLike.getSource a) a)

/-- Modelled from the spec: `trigger(name, args)` sets
`args.event_name = name`, then invokes each registered subscriber for
`name`, in registration order, passing `(args.source, args)`. -/
def Events.trigger [ArgsLike A] (e : Events A) (name : String) (a : A) :
    A :=
  runCallbacks (e.callbacks name) (ArgsLike.setEventName a name)

/-- The invocation trace of `trigger(name, args)`: the pairs passed to
the subscribers, in invocation order. -/
def Events.triggerTrace [ArgsLike A] (e : Events A) (name : String)
    (a : A) : List (PyValue × A) :=
  runTrace (e.callbacks name) (ArgsLike.setEventName a name)

/-- A subscriber callback that may raise: `Except.error ex` embeds a
Python exception `ex` escaping the subscriber call. -/
def CallbackE (A : Type) : Type :=
  PyValue → A → Except PyValue A

/-- Modelled from the spec: the `Events` registry, with subscribers that
may raise (same mapping as `Events`, raising-aware callback type). -/
structure EventsE (A : Type) : Type where
  callbacks : String → List (CallbackE A)

/-- A freshly constructed raising-aware registry: no subscribers. -/
def EventsE.empty (A : Type) : EventsE A :=
  ⟨fun _ => []⟩

/-- `on(name, callback)` for the raising-aware registry. -/
def EventsE.on (e : EventsE A) (name : String) (cb : CallbackE A) :
    EventsE A :=
  ⟨fun k => if k = name then e.callbacks k ++ [cb] else e.callbacks k⟩

/-- The raising-aware instrumented dispatch loop: invokes callbacks in
order; recording each pair passed; when a callback raises, the exception
propagates at once and no further callback is invoked. -/
def runTraceE [ArgsLike A] :
    List (CallbackE A) → A → List (PyValue × A) × Except PyValue A
  | [], a => ([], Except.ok a)
  | cb :: rest, a =>
      match cb (ArgsLike.getSource a) a with
      | Except.ok a2 =>
          let r := runTraceE rest a2
          ((ArgsLike.getSource a, a) :: r.1, r.2)
      | Except.error ex => ([(ArgsLike.getSource a, a)], Except.error ex)

/-- Modelled from the spec: `trigger(name, args)` in the raising-aware
model; an exception raised inside a subscriber propagates synchronously
out of `trigger`. -/
def EventsE.trigger [ArgsLike A] (e : EventsE A) (name : String) (a : A) :
    Except PyValue A :=
  (runTraceE (e.callbacks name) (ArgsLike.setEventName a name)).2

/-- The invocation trace of a raising-aware `trigger(name, args)`. -/
def EventsE.triggerTrace [ArgsLike A] (e : EventsE A) (name : String)
    (a : A) : List (PyValue × A) :=
  (runTraceE (e.callbacks name) (ArgsLike.setEventName a name)).1

/-- The single-quote character. -/
def sqc : Char := Char.ofNat 39

/-- The double-quote character. -/
def dqc : Char := Char.ofNat 34

/-- The backslash character. -/
def bsc : Char := Char.ofNat 92

/-- Escaping of one character inside a Python string repr with quote
character `q`: backslash and the quote character are backslash-escaped,
every other printable character stands for itself. -/
def pyEscape (q : Char) (c : Char) : List Char :=
  if c = bsc then [bsc, bsc]
  else if c = q then [bsc, c]
  else [c]

/-- Python `repr` of a string (printable characters): the quote character
is a single quote, unless the string contains a single quote and no
double quote, in which case it is a double quote; the content is escaped
accordingly and wrapped in the quote character. -/
def pyStrRepr (s : String) : String :=
  let q := if s.data.contains sqc && !(s.data.contains dqc) then dqc else sqc
  String.mk (q :: (s.data.flatMap (pyEscape q) ++ [q]))

/-- Python `repr` on the embedded values (printable strings). -/
def pyValueRepr : PyValue → String
  | PyValue.none => "None"
  | PyValue.int n => toString n
  | PyValue.str s => pyStrRepr s
  | PyValue.obj n => "<object " ++ toString n ++ ">"

/-- The default message `CancelEventError` builds from its event args:
the f-string `Event ... is canceled!` with the event name wrapped in
single quotes. -/
def cancelMsg (event_args : EventArgs) : String :=
  "Event " ++ String.mk [sqc] ++ event_args.event_name ++ String.mk [sqc]
    ++ " is canceled!"

/-- `CancelEventError` from `src/ooodev/exceptions/ex.py`: an exception
whose argument tuple is `(event_args, message, *args)`. -/
structure CancelEventError : Type where
  arg0 : EventArgs
  arg1 : PyValue
  rest : List PyValue
deriving DecidableEq

/-- `CancelEventError.__init__(self, event_args, message=None, *args)`:
when `message is None` the default message built from
`event_args.event_name` is used, otherwise `message` is used verbatim;
`super().__init__(event_args, message, *args)` stores the tuple. -/
def CancelEventError.init (event_args : EventArgs) (message : PyValue)
    (args : List PyValue) : CancelEventError :=
  { arg0 := event_args,
    arg1 := if message = PyValue.none
            then PyValue.str (cancelMsg event_args) else message,
    rest := args }

/-- `CancelEventError.__str__(self)`: `return repr(self.args[1])`. -/
def CancelEventError.py_str (e : CancelEventError) : String :=
  pyValueRepr e.arg1

/-- Fixture: a subscriber that sets `args.cancel = True` (as the test
subscriber in `test_trigger_event_canceled` does). -/
def cbSetCancel : Callback CancelEventArgs :=
  fun _ x => x.set_cancel true

/-- Fixture: a subscriber that sets `args.cancel = False`. -/
def cbUncancel : Callback CancelEventArgs :=
  fun _ x => x.set_cancel false

/-- Fixture: a subscriber that reassigns `args.event_name`. -/
def cbRename : Callback CancelEventArgs :=
  fun _ x => x.set_event_name "renamed"

/-- Fixture: a fresh `CancelEventArgs` over the opaque source object 0. -/
def cargs0 : CancelEventArgs :=
  CancelEventArgs.init (PyValue.obj 0)

/-- Fixture: a registry with the cancel-setting subscriber registered for
the name `save`. -/
def regSave : Events CancelEventArgs :=
  (Events.empty CancelEventArgs).on "save" cbSetCancel

/-- Fixture: a registry for `save` with a cancel-setting subscriber
followed by a cancel-clearing subscriber. -/
def regCancelUncancel : Events CancelEventArgs :=
  ((Events.empty CancelEventArgs).on "save" cbSetCancel).on "save" cbUncancel

/-- Fixture: a registry for `save` with an event-name-reassigning
subscriber. -/
def regRename : Events CancelEventArgs :=
  (Events.empty CancelEventArgs).on "save" cbRename

/-- Fixture: a raising subscriber. -/
def cbRaiseE : CallbackE CancelEventArgs :=
  fun _ _ => Except.error (PyValue.str "boom")

/-- Fixture: a normally returning raising-aware subscriber. -/
def cbOkE : CallbackE CancelEventArgs :=
  fun _ x => Except.ok (x.set_cancel true)

/-- Fixture: a registry for `save` with a raising subscriber followed by
a normally returning one. -/
def regRaiseE : EventsE CancelEventArgs :=
  ((EventsE.empty CancelEventArgs).on "save" cbRaiseE).on "save" cbOkE

/-- Fixture: an `EventArgs` whose `event_name` was set to `save`. -/
def eaSave : EventArgs :=
  (EventArgs.init (PyValue.obj 0)).set_event_name "save"

/-- C5: for every source object `src`, `EventArgs(src)` yields an object
whose `event_name` is the empty string, whose `event_data` reads as the
absent value `None`, and whose `source` is the very object `src`. -/
theorem c5_event_args_construction (src : PyValue) :
    (EventArgs.init src).event_name = "" ∧
    (EventArgs.init src).event_data = PyValue.none ∧
    (EventArgs.init src).source = src := by
  refine ⟨rfl, rfl, rfl⟩

/-- C6: reading `event_data` on a freshly constructed `EventArgs` hits an
absent attribute (the raw read raises `AttributeError`), yet the property
getter returns the absent value `None` and never propagates the error. -/
theorem c6_event_data_before_write (src : PyValue) :
    (EventArgs.init src).event_data_attr = Except.error "AttributeError" ∧
    (EventArgs.init src).event_data = PyValue.none := by
  exact ⟨rfl, rfl⟩

/-- C7: for every string `s` and source `src`, constructing
`EventArgs(src)` and assigning `event_name = s` makes a subsequent read
of `event_name` return exactly `s`. -/
theorem c7_event_name_roundtrip (s : String) (src : PyValue) :
    ((EventArgs.init src).set_event_name s).event_name = s := by
  rfl

theorem runTrace_length_eq [ArgsLike A] (cbs : List (Callback A)) (a : A) :
    (runTrace cbs a).length = cbs.length := by
  induction cbs generalizing a with
  | nil => rfl
  | cons cb rest ih => simp [runTrace, ih]

theorem dispatchStates_length_eq [ArgsLike A] (cbs : List (Callback A))
    (a : A) : (dispatchStates cbs a).length = cbs.length := by
  induction cbs generalizing a with
  | nil => rfl
  | cons cb rest ih => simp [dispatchStates, ih]

theorem runTrace_eq_map [ArgsLike A] (cbs : List (Callback A)) (a : A) :
    runTrace cbs a =
      (dispatchStates cbs a).map (fun s => (ArgsLike.getSource s, s)) := by
  induction cbs generalizing a with
  | nil => rfl
  | cons cb rest ih => simp [runTrace, dispatchStates, ih]

theorem dispatchChain_eq_append [ArgsLike A] (cbs : List (Callback A))
    (a : A) :
    dispatchChain cbs a = dispatchStates cbs a ++ [runCallbacks cbs a] := by
  induction cbs generalizing a with
  | nil => rfl
  | cons cb rest ih => simp [dispatchChain, dispatchStates, runCallbacks, ih]

theorem dispatchChain_get_zero [ArgsLike A] (cbs : List (Callback A))
    (a : A) (h : 0 < (dispatchChain cbs a).length) :
    (dispatchChain cbs a).get ⟨0, h⟩ = a := by
  cases cbs with
  | nil => rfl
  | cons cb rest => rfl

theorem dispatchChain_get_succ [ArgsLike A] (cbs : List (Callback A))
    (a : A) (i : Nat) (hc : i < cbs.length)
    (h0 : i < (dispatchChain cbs a).length)
    (h1 : i + 1 < (dispatchChain cbs a).length) :
    (dispatchChain cbs a).get ⟨i + 1, h1⟩ =
      (cbs.get ⟨i, hc⟩)
        (ArgsLike.getSource ((dispatchChain cbs a).get ⟨i, h0⟩))
        ((dispatchChain cbs a).get ⟨i, h0⟩) := by
  induction cbs generalizing a i with
  | nil => exact absurd hc (Nat.not_lt_zero i)
  | cons cb rest ih =>
    cases i with
    | zero =>
      show (dispatchChain rest (cb (ArgsLike.getSource a) a)).get ⟨0, _⟩ =
        cb (ArgsLike.getSource a) a
      exact dispatchChain_get_zero rest _ _
    | succ i2 =>
      exact ih (cb (ArgsLike.getSource a) a) i2
        (Nat.lt_of_succ_lt_succ hc)
        (Nat.lt_of_succ_lt_succ h0)
        (Nat.lt_of_succ_lt_succ h1)

theorem runCallbacks_preserves_event_name [ArgsLike A]
    (cbs : List (Callback A)) (a : A)
    (h : ∀ cb ∈ cbs, ∀ s x,
      ArgsLike.getEventName (cb s x) = ArgsLike.getEventName x) :
    ArgsLike.getEventName (runCallbacks cbs a) = ArgsLike.getEventName a := by
  induction cbs generalizing a with
  | nil => rfl
  | cons cb rest ih =>
    have h2 : ∀ c ∈ rest, ∀ s x,
        ArgsLike.getEventName (c s x) = ArgsLike.getEventName x :=
      fun c hm => h c (List.mem_cons_of_mem cb hm)
    show ArgsLike.getEventName
      (runCallbacks rest (cb (ArgsLike.getSource a) a)) = _
    rw [ih _ h2, h cb (List.mem_cons_self cb rest)]

theorem runCallbacks_cancel_mono (cbs : List (Callback CancelEventArgs))
    (a : CancelEventArgs)
    (hmono : ∀ cb ∈ cbs, ∀ s x, x.cancel = true → (cb s x).cancel = true)
    (ha : a.cancel = true) : (runCallbacks cbs a).cancel = true := by
  induction cbs generalizing a with
  | nil => exact ha
  | cons cb rest ih =>
    exact ih _ (fun c hm => hmono c (List.mem_cons_of_mem cb hm))
      (hmono cb (List.mem_cons_self cb rest) _ a ha)

theorem dispatchChain_cancel_all (cbs : List (Callback CancelEventArgs))
    (a : CancelEventArgs)
    (hmono : ∀ cb ∈ cbs, ∀ s x, x.cancel = true → (cb s x).cancel = true)
    (ha : a.cancel = true) :
    ∀ s ∈ dispatchChain cbs a, s.cancel = true := by
  induction cbs generalizing a with
  | nil =>
    intro s hs
    rw [dispatchChain] at hs
    rw [List.mem_singleton.mp hs]
    exact ha
  | cons cb rest ih =>
    intro s hs
    rw [dispatchChain] at hs
    rcases List.mem_cons.mp hs with h | h
    · rw [h]; exact ha
    · exact ih _ (fun c hm => hmono c (List.mem_cons_of_mem cb hm))
        (hmono cb (List.mem_cons_self cb rest) _ a ha) s h

theorem dispatchChain_cancel_final (cbs : List (Callback CancelEventArgs))
    (a : CancelEventArgs)
    (hmono : ∀ cb ∈ cbs, ∀ s x, x.cancel = true → (cb s x).cancel = true) :
    ∀ s ∈ dispatchChain cbs a, s.cancel = true →
      (runCallbacks cbs a).cancel = true := by
  induction cbs generalizing a with
  | nil =>
    intro s hs hc
    rw [dispatchChain] at hs
    rw [show runCallbacks [] a = a from rfl, ← List.mem_singleton.mp hs]
    exact hc
  | cons cb rest ih =>
    intro s hs hc
    rw [dispatchChain] at hs
    rcases List.mem_cons.mp hs with h | h
    · show (runCallbacks rest (cb (ArgsLike.getSource a) a)).cancel = true
      exact runCallbacks_cancel_mono rest _
        (fun c hm => hmono c (List.mem_cons_of_mem cb hm))
        (hmono cb (List.mem_cons_self cb rest) _ a (h ▸ hc))
    · exact ih _ (fun c hm => hmono c (List.mem_cons_of_mem cb hm)) s h hc

theorem dispatchChain_cancel_get_mono (cbs : List (Callback CancelEventArgs))
    (a : CancelEventArgs)
    (hmono : ∀ cb ∈ cbs, ∀ s x, x.cancel = true → (cb s x).cancel = true) :
    ∀ i j (hi : i < (dispatchChain cbs a).length)
      (hj : j < (dispatchChain cbs a).length), i ≤ j →
      ((dispatchChain cbs a).get ⟨i, hi⟩).cancel = true →
      ((dispatchChain cbs a).get ⟨j, hj⟩).cancel = true := by
  induction cbs generalizing a with
  | nil =>
    intro i j hi hj hij hc
    have hi0 : i = 0 := by
      have : (dispatchChain ([] : List (Callback CancelEventArgs)) a).length = 1 := rfl
      omega
    have hj0 : j = 0 := by
      have : (dispatchChain ([] : List (Callback CancelEventArgs)) a).length = 1 := rfl
      omega
    subst hi0; subst hj0
    exact hc
  | cons cb rest ih =>
    intro i j hi hj hij hc
    cases j with
    | zero =>
      have hi0 : i = 0 := Nat.le_zero.mp hij
      subst hi0
      exact hc
    | succ j2 =>
      cases i with
      | zero =>
        have ha : a.cancel = true := by
          have hz := dispatchChain_get_zero (cb :: rest) a
            (Nat.lt_of_le_of_lt (Nat.zero_le 0) hi)
          rw [show ((dispatchChain (cb :: rest) a).get ⟨0, hi⟩) =
            (dispatchChain (cb :: rest) a).get
              ⟨0, Nat.lt_of_le_of_lt (Nat.zero_le 0) hi⟩ from rfl, hz] at hc
          exact hc
        have hall := dispatchChain_cancel_all (cb :: rest) a hmono ha
        exact hall _ (List.get_mem _ _ _)
      | succ i2 =>
        exact ih (cb (ArgsLike.getSource a) a)
          (fun c hm => hmono c (List.mem_cons_of_mem cb hm)) i2 j2
          (Nat.lt_of_succ_lt_succ hi) (Nat.lt_of_succ_lt_succ hj)
          (Nat.le_of_succ_le_succ hij) hc

theorem runTraceE_ok_length [ArgsLike A] (xs : List (CallbackE A))
    (a b : A) (tr : List (PyValue × A))
    (h : runTraceE xs a = (tr, Except.ok b)) : tr.length = xs.length := by
  induction xs generalizing a tr with
  | nil =>
    rw [runTraceE] at h
    rw [← ((Prod.mk.injEq _ _ _ _).mp h).1]
    rfl
  | cons cb rest ih =>
    rw [runTraceE] at h
    cases hcb : cb (ArgsLike.getSource a) a with
    | ok a2 =>
      rw [hcb] at h
      simp only at h
      obtain ⟨h1, h2⟩ := (Prod.mk.injEq _ _ _ _).mp h
      have := ih a2 (runTraceE rest a2).1
        (by rw [← h2])
      rw [← h1, List.length_cons, this, List.length_cons]
    | error ex =>
      rw [hcb] at h
      simp only at h
      exact absurd ((Prod.mk.injEq _ _ _ _).mp h).2 (by simp)

theorem runTraceE_append_ok [ArgsLike A] (xs ys : List (CallbackE A))
    (a b : A) (tr : List (PyValue × A))
    (h : runTraceE xs a = (tr, Except.ok b)) :
    runTraceE (xs ++ ys) a =
      (tr ++ (runTraceE ys b).1, (runTraceE ys b).2) := by
  induction xs generalizing a tr with
  | nil =>
    rw [runTraceE] at h
    obtain ⟨h1, h2⟩ := (Prod.mk.injEq _ _ _ _).mp h
    rw [List.nil_append, ← h1, List.nil_append,
      Except.ok.injEq _ _ |>.mp h2]
  | cons cb rest ih =>
    rw [runTraceE] at h
    rw [List.cons_append, runTraceE]
    cases hcb : cb (ArgsLike.getSource a) a with
    | ok a2 =>
      simp only [hcb] at h ⊢
      obtain ⟨h1, h2⟩ := (Prod.mk.injEq _ _ _ _).mp h
      have hrest : runTraceE rest a2 = ((runTraceE rest a2).1, Except.ok b) := by
        rw [← h2]
      rw [ih a2 (runTraceE rest a2).1 hrest, ← h1]
      simp
    | error ex =>
      simp only [hcb] at h
      exact absurd ((Prod.mk.injEq _ _ _ _).mp h).2 (by simp)

/-- C1 (amended): `trigger(name, args)` first sets `args.event_name` to
`name` (the state passed to the first subscriber already carries it),
then invokes each subscriber registered for `name` exactly once per
registration, in registration order, passing the pair
`(args.source, args)` for the current args state; provided no subscriber
reassigns `event_name`, after `trigger` returns `args.event_name` equals
`name`. -/
theorem c1_trigger_dispatch [ArgsLike A] (e : Events A) (n : String)
    (a : A)
    (hpres : ∀ cb ∈ e.callbacks n, ∀ s x,
      ArgsLike.getEventName (cb s x) = ArgsLike.getEventName x) :
    ArgsLike.getEventName (ArgsLike.setEventName a n) = n ∧
    e.triggerTrace n a =
      (dispatchStates (e.callbacks n) (ArgsLike.setEventName a n)).map
        (fun s => (ArgsLike.getSource s, s)) ∧
    (e.triggerTrace n a).length = (e.callbacks n).length ∧
    dispatchChain (e.callbacks n) (ArgsLike.setEventName a n) =
      dispatchStates (e.callbacks n) (ArgsLike.setEventName a n) ++
        [e.trigger n a] ∧
    (∀ i (hc : i < (e.callbacks n).length)
        (h0 : i < (dispatchChain (e.callbacks n)
          (ArgsLike.setEventName a n)).length)
        (h1 : i + 1 < (dispatchChain (e.callbacks n)
          (ArgsLike.setEventName a n)).length),
      (dispatchChain (e.callbacks n) (ArgsLike.setEventName a n)).get
          ⟨i + 1, h1⟩ =
        ((e.callbacks n).get ⟨i, hc⟩)
          (ArgsLike.getSource ((dispatchChain (e.callbacks n)
            (ArgsLike.setEventName a n)).get ⟨i, h0⟩))
          ((dispatchChain (e.callbacks n)
            (ArgsLike.setEventName a n)).get ⟨i, h0⟩)) ∧
    ArgsLike.getEventName (e.trigger n a) = n := by
  refine ⟨ArgsLike.getEventName_set a n,
    runTrace_eq_map _ _,
    runTrace_length_eq _ _,
    dispatchChain_eq_append _ _,
    fun i hc h0 h1 => dispatchChain_get_succ _ _ i hc h0 h1,
    ?_⟩
  rw [Events.trigger, runCallbacks_preserves_event_name _ _ hpres,
    ArgsLike.getEventName_set]

theorem c1_trigger_dispatch_witness :
    (∀ cb ∈ regSave.callbacks "save", ∀ s x,
      ArgsLike.getEventName (cb s x) = ArgsLike.getEventName x) ∧
    ArgsLike.getEventName (regSave.trigger "save" cargs0) = "save" := by
  have hpres : ∀ cb ∈ regSave.callbacks "save", ∀ s x,
      ArgsLike.getEventName (cb s x) = ArgsLike.getEventName x := by
    intro cb hcb s x
    have hl : regSave.callbacks "save" = [cbSetCancel] := rfl
    rw [hl] at hcb
    rw [List.mem_singleton.mp hcb]
    rfl
  exact ⟨hpres, (c1_trigger_dispatch regSave "save" cargs0 hpres).2.2.2.2.2⟩

/-- C1 is false as stated: a subscriber may itself reassign `event_name`,
so `args.event_name` after `trigger("save", args)` returns is not always
`"save"`. -/
theorem c1_counterexample :
    (regRename.trigger "save" cargs0).event_name ≠ "save" := by
  decide

/-- C2: even when a subscriber sets `cancel = true` during a dispatch,
`trigger` still invokes every registered subscriber for the name — the
number of invocations equals the number of registrations, so cancellation
never short-circuits the dispatch. -/
theorem c2_cancel_is_advisory (e : Events CancelEventArgs) (n : String)
    (a : CancelEventArgs)
    (_hcanc : ∃ s ∈ dispatchChain (e.callbacks n)
      (ArgsLike.setEventName a n), s.cancel = true) :
    (e.triggerTrace n a).length = (e.callbacks n).length ∧
    (dispatchStates (e.callbacks n) (ArgsLike.setEventName a n)).length =
      (e.callbacks n).length := by
  exact ⟨runTrace_length_eq _ _, dispatchStates_length_eq _ _⟩

theorem c2_cancel_is_advisory_witness :
    (∃ s ∈ dispatchChain (regSave.callbacks "save")
      (ArgsLike.setEventName cargs0 "save"), s.cancel = true) ∧
    (regSave.triggerTrace "save" cargs0).length =
      (regSave.callbacks "save").length := by
  have hex : ∃ s ∈ dispatchChain (regSave.callbacks "save")
      (ArgsLike.setEventName cargs0 "save"), s.cancel = true := by decide
  exact ⟨hex, (c2_cancel_is_advisory regSave "save" cargs0 hex).1⟩

/-- C3 (amended): the dispatcher itself never modifies `cancel`; provided
no subscriber assigns `cancel = false`, once the flag is true at some
point of a dispatch it stays true at every later point of that dispatch,
including the final state `trigger` returns. -/
theorem c3_cancel_sticky (e : Events CancelEventArgs) (n : String)
    (a : CancelEventArgs)
    (hmono : ∀ cb ∈ e.callbacks n, ∀ s x, x.cancel = true →
      (cb s x).cancel = true) :
    (∀ i j (hi : i < (dispatchChain (e.callbacks n)
        (ArgsLike.setEventName a n)).length)
      (hj : j < (dispatchChain (e.callbacks n)
        (ArgsLike.setEventName a n)).length), i ≤ j →
      ((dispatchChain (e.callbacks n)
        (ArgsLike.setEventName a n)).get ⟨i, hi⟩).cancel = true →
      ((dispatchChain (e.callbacks n)
        (ArgsLike.setEventName a n)).get ⟨j, hj⟩).cancel = true) ∧
    (∀ s ∈ dispatchChain (e.callbacks n) (ArgsLike.setEventName a n),
      s.cancel = true → (e.trigger n a).cancel = true) := by
  exact ⟨dispatchChain_cancel_get_mono _ _ hmono,
    fun s hs hc => dispatchChain_cancel_final _ _ hmono s hs hc⟩

theorem c3_cancel_sticky_witness :
    (∀ cb ∈ regSave.callbacks "save", ∀ s x, x.cancel = true →
      (cb s x).cancel = true) ∧
    (regSave.trigger "save" cargs0).cancel = true := by
  have hmono : ∀ cb ∈ regSave.callbacks "save", ∀ s x, x.cancel = true →
      (cb s x).cancel = true := by
    intro cb hcb s x hx
    have hl : regSave.callbacks "save" = [cbSetCancel] := rfl
    rw [hl] at hcb
    rw [List.mem_singleton.mp hcb]
    rfl
  refine ⟨hmono, (c3_cancel_sticky regSave "save" cargs0 hmono).2
    (cbSetCancel (ArgsLike.getSource (ArgsLike.setEventName cargs0 "save"))
      (ArgsLike.setEventName cargs0 "save")) ?_ rfl⟩
  decide

/-- C3 is false as stated: a later subscriber can reset `cancel` to
false — here the first subscriber sets the flag true, the second sets it
false, and after `trigger` returns the flag reads false. -/
theorem c3_counterexample :
    (∃ s ∈ dispatchChain (regCancelUncancel.callbacks "save")
      (ArgsLike.setEventName cargs0 "save"), s.cancel = true) ∧
    (regCancelUncancel.trigger "save" cargs0).cancel = false := by
  decide

/-- C4: if a subscriber raises, the exception propagates synchronously
out of `trigger` and none of the subscribers registered after it for the
name are invoked in that dispatch: the invocations are exactly the
subscribers before the raising one, plus the raising one itself. -/
theorem c4_exception_fail_fast [ArgsLike A] (e : EventsE A) (n : String)
    (a : A) (pre post : List (CallbackE A)) (cb : CallbackE A)
    (tr : List (PyValue × A)) (b : A) (ex : PyValue)
    (hsubs : e.callbacks n = pre ++ cb :: post)
    (hpre : runTraceE pre (ArgsLike.setEventName a n) = (tr, Except.ok b))
    (hraise : cb (ArgsLike.getSource b) b = Except.error ex) :
    e.trigger n a = Except.error ex ∧
    e.triggerTrace n a = tr ++ [(ArgsLike.getSource b, b)] ∧
    (e.triggerTrace n a).length = pre.length + 1 := by
  have hcb : runTraceE (cb :: post) b =
      ([(ArgsLike.getSource b, b)], Except.error ex) := by
    rw [runTraceE, hraise]
  have happ := runTraceE_append_ok pre (cb :: post)
    (ArgsLike.setEventName a n) b tr hpre
  rw [hcb] at happ
  simp only at happ
  have hlen := runTraceE_ok_length pre (ArgsLike.setEventName a n) b tr hpre
  refine ⟨?_, ?_, ?_⟩
  · show (runTraceE (e.callbacks n) (ArgsLike.setEventName a n)).2 =
      Except.error ex
    rw [hsubs, happ]
  · show (runTraceE (e.callbacks n) (ArgsLike.setEventName a n)).1 =
      tr ++ [(ArgsLike.getSource b, b)]
    rw [hsubs, happ]
  · show (runTraceE (e.callbacks n) (ArgsLike.setEventName a n)).1.length =
      pre.length + 1
    rw [hsubs, happ]
    simp [hlen]

theorem c4_exception_fail_fast_witness :
    (regRaiseE.callbacks "save" = [] ++ cbRaiseE :: [cbOkE]) ∧
    (runTraceE ([] : List (CallbackE CancelEventArgs))
      (ArgsLike.setEventName cargs0 "save") =
        ([], Except.ok (ArgsLike.setEventName cargs0 "save"))) ∧
    (cbRaiseE (ArgsLike.getSource (ArgsLike.setEventName cargs0 "save"))
      (ArgsLike.setEventName cargs0 "save") =
        Except.error (PyValue.str "boom")) ∧
    regRaiseE.trigger "save" cargs0 = Except.error (PyValue.str "boom") := by
  have h1 : regRaiseE.callbacks "save" = [] ++ cbRaiseE :: [cbOkE] := rfl
  have h2 : runTraceE ([] : List (CallbackE CancelEventArgs))
      (ArgsLike.setEventName cargs0 "save") =
      ([], Except.ok (ArgsLike.setEventName cargs0 "save")) := rfl
  have h3 : cbRaiseE
      (ArgsLike.getSource (ArgsLike.setEventName cargs0 "save"))
      (ArgsLike.setEventName cargs0 "save") =
      Except.error (PyValue.str "boom") := rfl
  exact ⟨h1, h2, h3, (c4_exception_fail_fast regRaiseE "save" cargs0 []
    [cbOkE] cbRaiseE [] (ArgsLike.setEventName cargs0 "save")
    (PyValue.str "boom") h1 h2 h3).1⟩

/-- C8: triggering a name with no registered subscribers raises nothing,
invokes no callback, and still sets `event_name` to the dispatched
name (stated over both the total and the raising-aware model). -/
theorem c8_trigger_no_subscribers [ArgsLike A] (e : Events A)
    (eE : EventsE A) (n : String) (a : A)
    (h : e.callbacks n = []) (hE : eE.callbacks n = []) :
    e.triggerTrace n a = [] ∧
    e.trigger n a = ArgsLike.setEventName a n ∧
    ArgsLike.getEventName (e.trigger n a) = n ∧
    eE.trigger n a = Except.ok (ArgsLike.setEventName a n) ∧
    eE.triggerTrace n a = [] := by
  refine ⟨?_, ?_, ?_, ?_, ?_⟩
  · rw [Events.triggerTrace, h]
    rfl
  · rw [Events.trigger, h]
    rfl
  · rw [Events.trigger, h]
    exact ArgsLike.getEventName_set a n
  · show (runTraceE (eE.callbacks n) (ArgsLike.setEventName a n)).2 = _
    rw [hE]
    rfl
  · show (runTraceE (eE.callbacks n) (ArgsLike.setEventName a n)).1 = []
    rw [hE]
    rfl

theorem c8_trigger_no_subscribers_witness :
    ((Events.empty CancelEventArgs).callbacks "doc_open" = []) ∧
    ((EventsE.empty CancelEventArgs).callbacks "doc_open" = []) ∧
    ArgsLike.getEventName
      ((Events.empty CancelEventArgs).trigger "doc_open" cargs0) =
        "doc_open" ∧
    (EventsE.empty CancelEventArgs).trigger "doc_open" cargs0 =
      Except.ok (ArgsLike.setEventName cargs0 "doc_open") := by
  have h1 : (Events.empty CancelEventArgs).callbacks "doc_open" = [] := rfl
  have h2 : (EventsE.empty CancelEventArgs).callbacks "doc_open" = [] := rfl
  have hc := c8_trigger_no_subscribers (Events.empty CancelEventArgs)
    (EventsE.empty CancelEventArgs) "doc_open" cargs0 h1 h2
  exact ⟨h1, h2, hc.2.2.1, hc.2.2.2.1⟩

/-- C9: registering the same callback `k` times for a name accumulates
exactly `k` registrations (duplicates are kept, nothing errors, nothing
deduplicates), and a subsequent trigger of that name produces exactly
`k` invocations, one per registration. -/
theorem c9_duplicate_registrations [ArgsLike A] (n : String)
    (cb : Callback A) (k : Nat) (a : A) :
    ((Events.empty A).onTimes n cb k).callbacks n = List.replicate k cb ∧
    (((Events.empty A).onTimes n cb k).triggerTrace n a).length = k := by
  have hreg : ∀ m : Nat,
      ((Events.empty A).onTimes n cb m).callbacks n =
        List.replicate m cb := by
    intro m
    induction m with
    | zero => rfl
    | succ m ih =>
      show (((Events.empty A).onTimes n cb m).on n cb).callbacks n = _
      simp [Events.on, ih, List.replicate_succ']
  refine ⟨hreg k, ?_⟩
  rw [Events.triggerTrace, hreg k, runTrace_length_eq,
    List.length_replicate]

/-- C10 (amended): with no explicit message, `CancelEventError(ea)`
stores as its second argument the plain string
`Event <ea.event_name> is canceled!` (event name wrapped in single
quotes) built from `ea.event_name`, and its `str()` is the Python repr of
that string; an explicit non-None message is stored verbatim as the
second argument. -/
theorem c10_cancel_event_error (ea : EventArgs) (rest : List PyValue)
    (m : PyValue) (hm : m ≠ PyValue.none) :
    (CancelEventError.init ea PyValue.none rest).arg1 =
      PyValue.str (cancelMsg ea) ∧
    (CancelEventError.init ea PyValue.none rest).py_str =
      pyStrRepr (cancelMsg ea) ∧
    (CancelEventError.init ea m rest).arg1 = m ∧
    (CancelEventError.init ea m rest).arg0 = ea := by
  refine ⟨rfl, rfl, ?_, rfl⟩
  show (if m = PyValue.none then PyValue.str (cancelMsg ea) else m) = m
  rw [if_neg hm]

theorem c10_cancel_event_error_witness :
    (PyValue.str "custom" ≠ PyValue.none) ∧
    (CancelEventError.init eaSave PyValue.none []).arg1 =
      PyValue.str (cancelMsg eaSave) ∧
    (CancelEventError.init eaSave (PyValue.str "custom") []).arg1 =
      PyValue.str "custom" := by
  have hm : PyValue.str "custom" ≠ PyValue.none := by decide
  have hc := c10_cancel_event_error eaSave [] (PyValue.str "custom") hm
  exact ⟨hm, hc.1, hc.2.2.1⟩

/-- C10 is false as stated: the stored second argument is the message
string itself, not the repr of that string — for event name `save` the
second argument differs from the repr (which wraps the text in
quotes). -/
theorem c10_counterexample :
    (CancelEventError.init eaSave PyValue.none []).arg1 ≠
      PyValue.str (pyStrRepr (cancelMsg eaSave)) ∧
    (CancelEventError.init eaSave PyValue.none []).arg1 =
      PyValue.str (cancelMsg eaSave) := by
  decide
